import Mathlib

/-!
Verification of the WMS Orchestrator arbitration engine
(`src/prototype/orchestrator_logic.py`) against its natural-language
specification.

Modelling conventions:
* `datetime` values are modelled as integers (an absolute timestamp).
* Python `float` scores and thresholds are modelled as rationals (`ℚ`).
* Python `dict`s that are only built by key assignment and read by key are
  modelled as association lists with Python-dict update semantics
  (`dictInsert` overwrites the value of an existing key in place,
  otherwise appends the new key at the end, preserving insertion order).
* The source file is an explicit behaviour specification: a number of its
  helper methods are placeholders returning fixed stub values
  (`_check_*`, `_calculate_sla_urgency`, `_calculate_operational_impact`,
  `_proposals_conflict`, `_find_alternative_time_or_location`,
  `_detect_*_conflicts`, `_find_existing_conflict_group`, the resolution
  metric calculators and the escalation flag helpers).  Those helpers are
  abstracted here as fields of an `Oracles` record so that theorems about
  the orchestrator's control flow hold for every implementation of the
  helpers; `stubOracles` instantiates them with the literal stub values
  returned by the source.
-/

/-- A time window, `{'earliest_start': …, 'latest_end': …}` in the source. -/
structure TimeWindow where
  earliest_start : Int
  latest_end : Int
deriving DecidableEq

/-- `ProposedAction` from `src/prototype/microagent_behaviors.py`.
`target_entities : Dict[str, Any]` is modelled as an association list of
string payloads, and `alternatives : List[Dict[str, Any]]` as a list of such
association lists. -/
structure ProposedAction where
  agent_name : String
  action_type : String
  target_entities : List (String × String)
  time_window : TimeWindow
  required_resources : List String
  priority : Int
  risk_score : ℚ
  uncertainty : ℚ
  constraints_respected : List String
  potential_conflicts : List String
  explanation : String
  confidence : ℚ
  alternatives : List (List (String × String))
  data_sources : List String
deriving DecidableEq

/-- `ConflictGroup` from `orchestrator_logic.py`. -/
structure ConflictGroup where
  conflict_id : String
  conflicting_proposals : List ProposedAction
  conflict_type : String
  conflict_location : String
  conflict_time_window : TimeWindow
  detected_at : Int
  risk_score : ℚ
deriving DecidableEq

/-- The value stored in `rescheduled_proposals`:
`{new_time_window, new_location, reason}`. -/
structure RescheduleInfo where
  new_time_window : TimeWindow
  new_location : Option String
  reason : String
deriving DecidableEq

/-- `operational_impact` dictionary: the two entries the source ever writes. -/
structure OperationalImpact where
  delay_minutes : ℚ
  throughput_impact : ℚ
deriving DecidableEq

/-- `ResolutionDecision` from `orchestrator_logic.py`. -/
structure ResolutionDecision where
  decision_id : String
  conflict_group : ConflictGroup
  approved_proposals : List ProposedAction
  rescheduled_proposals : List (String × RescheduleInfo)
  rejected_proposals : List (String × String)
  escalation_required : Bool
  rationale : String
  confidence : ℚ
  safety_risk : ℚ
  sla_risk : ℚ
  operational_impact : OperationalImpact
deriving DecidableEq

/-- `WarehouseState` from `orchestrator_logic.py` (dictionaries as
association lists, datetimes as integers). -/
structure WarehouseState where
  aisle_occupancy : List (String × String)
  aisle_capacity : List (String × Int)
  worker_density : List (String × ℚ)
  worker_availability : List (String × Bool)
  forklift_availability : List (String × Bool)
  equipment_status : List (String × String)
  safety_locks : List String
  maintenance_windows : List (String × (Int × Int))
  active_orders : List (List (String × String))
  order_sla_status : List (String × String)
  current_time : Int
  peak_hours : List (Int × Int)
deriving DecidableEq

/-- `ApprovedAction` from `orchestrator_logic.py`. -/
structure ApprovedAction where
  action_id : String
  original_proposal : ProposedAction
  approved_time_window : TimeWindow
  approved_resources : List String
  execution_priority : Int
  safety_validated : Bool
  sla_validated : Bool
  approved_by : String
  approved_at : Int
deriving DecidableEq

/-- The alternative returned by `_find_alternative_time_or_location`:
a dictionary carrying `time_window` and optionally `location`. -/
structure AlternativeSlot where
  time_window : TimeWindow
  location : Option String
deriving DecidableEq

/-- Configuration loaded in `WMSOrchestrator.__init__`. -/
structure OrchestratorConfig where
  safety_risk_threshold : ℚ
  sla_risk_threshold : ℚ
  confidence_threshold : ℚ
  complexity_threshold : Nat
deriving DecidableEq

/-- The literal configuration values of `WMSOrchestrator.__init__`:
safety 0.1, SLA 0.2, confidence 0.95, complexity 2. -/
def defaultConfig : OrchestratorConfig :=
  { safety_risk_threshold := 1/10
    sla_risk_threshold := 1/5
    confidence_threshold := 19/20
    complexity_threshold := 2 }

/-- Modelled from the spec: the source leaves every helper below as a
placeholder returning a fixed stub value (spec §9 "Unspecified
conflict-geometry algorithms … stub functions returning constants").  Each
field stands for one placeholder helper of `WMSOrchestrator`; the
orchestrator's concrete control flow is parameterised over them. -/
structure Oracles where
  check_aisle_occupancy : ProposedAction → WarehouseState → Bool
  check_forklift_worker_proximity : ProposedAction → WarehouseState → Bool
  check_worker_density : ProposedAction → WarehouseState → Bool
  check_aisle_locks : ProposedAction → WarehouseState → Bool
  check_equipment_safety : ProposedAction → WarehouseState → Bool
  check_order_promise_dates : ProposedAction → WarehouseState → Bool
  check_priority_tiers : ProposedAction → WarehouseState → Bool
  check_cutoff_times : ProposedAction → WarehouseState → Bool
  check_expedite_requests : ProposedAction → WarehouseState → Bool
  calculate_sla_urgency : ProposedAction → WarehouseState → ℚ
  calculate_operational_impact : ProposedAction → WarehouseState → ℚ
  proposals_conflict : ProposedAction → ProposedAction → WarehouseState → Bool
  find_alternative_time_or_location :
    ProposedAction → WarehouseState → List ProposedAction → Option AlternativeSlot
  get_violation_details : ProposedAction → WarehouseState → String
  passes_basic_constraints : ProposedAction → Bool
  detect_aisle_conflicts : List ProposedAction → WarehouseState → List ConflictGroup
  detect_resource_conflicts : List ProposedAction → WarehouseState → List ConflictGroup
  detect_safety_violations : List ProposedAction → WarehouseState → List ConflictGroup
  detect_sla_tradeoffs : List ProposedAction → WarehouseState → List ConflictGroup
  calculate_resolution_safety_risk :
    List ProposedAction → List (String × RescheduleInfo) → WarehouseState → ℚ
  calculate_resolution_sla_risk :
    List ProposedAction → List (String × RescheduleInfo) → WarehouseState → ℚ
  calculate_resolution_operational_impact :
    List ProposedAction → List (String × RescheduleInfo) → WarehouseState → OperationalImpact
  calculate_resolution_confidence :
    List ProposedAction → List (String × RescheduleInfo) → List (String × String) →
      ℚ → ℚ → WarehouseState → ℚ
  build_resolution_rationale :
    ConflictGroup → List ProposedAction → List (String × RescheduleInfo) →
      List (String × String) → ℚ → ℚ → OperationalImpact → String
  has_critical_sla_impact : ResolutionDecision → Bool
  has_safety_overrides : ResolutionDecision → Bool
  has_ambiguous_tradeoffs : ResolutionDecision → Bool

/-- The literal stub values of the placeholder helpers in the source:
all rule checks return `True`, `_calculate_sla_urgency` returns `0.5`,
`_calculate_operational_impact` returns `0.3`, `_proposals_conflict`
returns `False`, `_find_alternative_time_or_location` and
`_find_existing_conflict_group` return `None`, the detectors return `[]`,
the resolution metrics return `0.05`, `0.1`,
`{'delay_minutes': 15, 'throughput_impact': 0.02}` and `0.92`, and the
escalation flag helpers return `False`. -/
def stubOracles : Oracles :=
  { check_aisle_occupancy := fun _ _ => true
    check_forklift_worker_proximity := fun _ _ => true
    check_worker_density := fun _ _ => true
    check_aisle_locks := fun _ _ => true
    check_equipment_safety := fun _ _ => true
    check_order_promise_dates := fun _ _ => true
    check_priority_tiers := fun _ _ => true
    check_cutoff_times := fun _ _ => true
    check_expedite_requests := fun _ _ => true
    calculate_sla_urgency := fun _ _ => 1/2
    calculate_operational_impact := fun _ _ => 3/10
    proposals_conflict := fun _ _ _ => false
    find_alternative_time_or_location := fun _ _ _ => none
    get_violation_details := fun _ _ => "Safety/SLA violation details"
    passes_basic_constraints := fun _ => true
    detect_aisle_conflicts := fun _ _ => []
    detect_resource_conflicts := fun _ _ => []
    detect_safety_violations := fun _ _ => []
    detect_sla_tradeoffs := fun _ _ => []
    calculate_resolution_safety_risk := fun _ _ _ => 1/20
    calculate_resolution_sla_risk := fun _ _ _ => 1/10
    calculate_resolution_operational_impact := fun _ _ _ => ⟨15, 1/50⟩
    calculate_resolution_confidence := fun _ _ _ _ _ _ => 23/25
    build_resolution_rationale := fun _ _ _ _ _ _ _ => "rationale"
    has_critical_sla_impact := fun _ => false
    has_safety_overrides := fun _ => false
    has_ambiguous_tradeoffs := fun _ => false }

/-- Python-dict key assignment `d[k] = v` on an association list: overwrite
the value of an existing key in place, otherwise append the key at the end
(Python dicts preserve insertion order and keep the original position on
overwrite). -/
def dictInsert {β : Type} (k : String) (v : β) : List (String × β) → List (String × β)
  | [] => [(k, v)]
  | kv :: rest => if kv.1 = k then (k, v) :: rest else kv :: dictInsert k v rest

/-- Python-dict key lookup on an association list. -/
def dictLookup {β : Type} (k : String) : List (String × β) → Option β
  | [] => none
  | kv :: rest => if kv.1 = k then some kv.2 else dictLookup k rest

/-- `k in d` on an association list. -/
def dictMem {β : Type} (k : String) (d : List (String × β)) : Bool :=
  (dictLookup k d).isSome

/-- Stable insertion into a list kept in descending `key` order: the new
element goes in front of the first element whose key is not larger.  This is
the insertion step of a stable descending sort. -/
def insertD {α : Type} (key : α → ℚ) (x : α) : List α → List α
  | [] => [x]
  | y :: ys => if key y ≤ key x then x :: y :: ys else y :: insertD key x ys

/-- Stable descending sort by `key`, extensionally equal to Python's
`list.sort(key=…, reverse=True)` (Python's sort is stable; among equal keys
the original order is preserved). -/
def sortD {α : Type} (key : α → ℚ) : List α → List α
  | [] => []
  | x :: xs => insertD key x (sortD key xs)

/-- `WMSOrchestrator._validate_proposal_schema`: the source checks with
`hasattr` that the required fields exist; in this typed model every field of
`ProposedAction` is always present, so the check always succeeds. -/
def validate_proposal_schema (_p : ProposedAction) : Bool := true

/-- `WMSOrchestrator._is_proposal_stale`: the time window's latest end is
before the current time. -/
def is_proposal_stale (p : ProposedAction) (current_time : Int) : Bool :=
  p.time_window.latest_end < current_time

/-- `WMSOrchestrator._has_complete_metadata`: the source checks that
`confidence`, `risk_score` and `uncertainty` are present and not `None`; in
this typed model they always are. -/
def has_complete_metadata (_p : ProposedAction) : Bool := true

/-- `WMSOrchestrator._is_duplicate_proposal`: same producer, same action
kind, same target entities as some active proposal. -/
def is_duplicate_proposal (p : ProposedAction) (active : List ProposedAction) : Bool :=
  active.any (fun a =>
    a.agent_name = p.agent_name ∧ a.action_type = p.action_type ∧
      a.target_entities = p.target_entities)

/-- `WMSOrchestrator._remove_duplicate`: drop every active proposal with the
same producer, action kind and target entities. -/
def remove_duplicate (p : ProposedAction) (active : List ProposedAction) :
    List ProposedAction :=
  active.filter (fun a =>
    ¬(a.agent_name = p.agent_name ∧ a.action_type = p.action_type ∧
      a.target_entities = p.target_entities))

/-- One iteration of the `collect_proposals` loop; the state is the pair
(valid proposals accumulated so far, active-proposal registry). -/
def collectStep (o : Oracles) (current_time : Int)
    (st : List ProposedAction × List ProposedAction) (p : ProposedAction) :
    List ProposedAction × List ProposedAction :=
  if ¬ validate_proposal_schema p then st
  else if is_proposal_stale p current_time then st
  else if ¬ has_complete_metadata p then st
  else
    let active := if is_duplicate_proposal p st.2 then remove_duplicate p st.2 else st.2
    if ¬ o.passes_basic_constraints p then (st.1, active)
    else (st.1 ++ [p], active ++ [p])

/-- `WMSOrchestrator.collect_proposals`.  The instance state
`self.active_proposals` is passed in and returned explicitly:
the result is `(valid_proposals, active_proposals after the call)`. -/
def collect_proposals (o : Oracles) (current_time : Int)
    (active : List ProposedAction) (proposals : List ProposedAction) :
    List ProposedAction × List ProposedAction :=
  proposals.foldl (collectStep o current_time) ([], active)

/-- `WMSOrchestrator._find_existing_conflict_group`.
Modelled from the spec: the source body is a stub returning `None`; its
declared purpose ("Find if any proposals already belong to existing conflict
group", used by `detect_conflicts` to merge candidate groups sharing a
member, spec §4.2 merge rule) is modelled as returning the index of the
first group sharing at least one of the given proposals. -/
def find_existing_conflict_group (proposals : List ProposedAction)
    (groups : List ConflictGroup) : Option Nat :=
  groups.findIdx? (fun g => proposals.any (fun p => p ∈ g.conflicting_proposals))

/-- The in-place merge performed by `detect_conflicts` on an existing group:
extend its member list with the not-yet-present proposals of the candidate
group and, for resource conflicts, set the type to `"multi_dimensional"`. -/
def mergeIntoGroup (g : ConflictGroup) (c : ConflictGroup) (setType : Bool) :
    ConflictGroup :=
  { g with
    conflicting_proposals :=
      g.conflicting_proposals ++
        c.conflicting_proposals.filter (fun p => p ∉ g.conflicting_proposals)
    conflict_type := if setType then "multi_dimensional" else g.conflict_type }

/-- Fold step for the merging passes (steps 2 and 4) of `detect_conflicts`. -/
def detectMergeStep (setType : Bool) (acc : List ConflictGroup) (c : ConflictGroup) :
    List ConflictGroup :=
  match find_existing_conflict_group c.conflicting_proposals acc with
  | some i =>
      match acc[i]? with
      | some g => acc.set i (mergeIntoGroup g c setType)
      | none => acc
  | none => acc ++ [c]

/-- `WMSOrchestrator.detect_conflicts`: aisle conflicts are appended (step 1),
resource conflicts are merged into an existing group sharing a member or
appended (step 2, setting the type to `"multi_dimensional"` on merge),
safety-violation groups are appended (step 3), and SLA tradeoff groups are
merged or appended (step 4, type unchanged).  The `processed_proposals` set
of the source is write-only and omitted. -/
def detect_conflicts (o : Oracles) (proposals : List ProposedAction)
    (gs : WarehouseState) : List ConflictGroup :=
  let groups1 := o.detect_aisle_conflicts proposals gs
  let groups2 := (o.detect_resource_conflicts proposals gs).foldl (detectMergeStep true) groups1
  let groups3 := groups2 ++ o.detect_safety_violations proposals gs
  (o.detect_sla_tradeoffs proposals gs).foldl (detectMergeStep false) groups3

/-- `WMSOrchestrator.apply_safety_and_SLA_rules`: the conjunction, in source
order, of the five safety checks and the four SLA checks. -/
def apply_safety_and_SLA_rules (o : Oracles) (p : ProposedAction)
    (gs : WarehouseState) : Bool :=
  o.check_aisle_occupancy p gs &&
  o.check_forklift_worker_proximity p gs &&
  o.check_worker_density p gs &&
  o.check_aisle_locks p gs &&
  o.check_equipment_safety p gs &&
  o.check_order_promise_dates p gs &&
  o.check_priority_tiers p gs &&
  o.check_cutoff_times p gs &&
  o.check_expedite_requests p gs

/-- `WMSOrchestrator._violates_safety_rules`. -/
def violates_safety_rules (o : Oracles) (p : ProposedAction)
    (gs : WarehouseState) : Bool :=
  ! apply_safety_and_SLA_rules o p gs

/-- `WMSOrchestrator._calculate_priority_weight`: the priority on the 1-10
scale normalised by 10. -/
def calculate_priority_weight (p : ProposedAction) (_gs : WarehouseState) : ℚ :=
  (p.priority : ℚ) / 10

/-- The composite score computed inside `score_and_rank`: `-1000` for a
proposal violating the safety rules, otherwise
`priority_weight·10 + sla_urgency·5 + (1 − operational_impact)·3 −
risk_score·2 − uncertainty·2`. -/
def compositeScore (o : Oracles) (gs : WarehouseState) (p : ProposedAction) : ℚ :=
  if violates_safety_rules o p gs then -1000
  else
    calculate_priority_weight p gs * 10 +
      o.calculate_sla_urgency p gs * 5 +
      (1 - o.calculate_operational_impact p gs) * 3 -
      p.risk_score * 2 -
      p.uncertainty * 2

/-- `WMSOrchestrator.score_and_rank`: score every member of the conflict
group and sort by score, highest first (Python's stable sort with
`reverse=True`); the intermediate score records are then projected back to
the proposals. -/
def score_and_rank (o : Oracles) (conflict_group : ConflictGroup)
    (gs : WarehouseState) : List ProposedAction :=
  sortD (compositeScore o gs) conflict_group.conflicting_proposals

/-- State of the resolution loop in `decide_resolution`. -/
structure ResState where
  approved : List ProposedAction
  rescheduled : List (String × RescheduleInfo)
  rejected : List (String × String)
deriving DecidableEq

/-- Step 3 of `decide_resolution`: reject every ranked proposal that fails
`apply_safety_and_SLA_rules`, keyed by agent name. -/
def rejectViolators (o : Oracles) (gs : WarehouseState)
    (ranked : List ProposedAction) : List (String × String) :=
  ranked.foldl
    (fun acc p =>
      if apply_safety_and_SLA_rules o p gs then acc
      else
        dictInsert p.agent_name
          ("Proposal violates safety/SLA rules: " ++ o.get_violation_details p gs) acc)
    []

/-- The rejection reason recorded when no alternative time or location can
be found for a lower-priority conflicting proposal. -/
def noAlternativeMsg : String :=
  "Cannot reschedule to accommodate higher-priority proposal, no alternative time/location available"

/-- One iteration of step 4 of `decide_resolution`: skip already-rejected
proposals; approve a proposal that conflicts with no approved proposal;
otherwise reschedule it if an alternative exists; otherwise leave it pending
(priority ≥ 8) or reject it. -/
def resolutionStep (o : Oracles) (gs : WarehouseState) (st : ResState)
    (p : ProposedAction) : ResState :=
  if dictMem p.agent_name st.rejected then st
  else
    match st.approved.find? (fun a => o.proposals_conflict p a gs) with
    | none => { st with approved := st.approved ++ [p] }
    | some a =>
        match o.find_alternative_time_or_location p gs st.approved with
        | some alt =>
            { st with
              rescheduled :=
                dictInsert p.agent_name
                  { new_time_window := alt.time_window
                    new_location := alt.location
                    reason :=
                      "Rescheduled to accommodate higher-priority proposal from " ++
                        a.agent_name }
                  st.rescheduled }
        | none =>
            if 8 ≤ p.priority then st
            else { st with rejected := dictInsert p.agent_name noAlternativeMsg st.rejected }

/-- `WMSOrchestrator.should_escalate_to_planner`: the six escalation rules,
in source order. -/
def should_escalate_to_planner (cfg : OrchestratorConfig) (o : Oracles)
    (decision : ResolutionDecision) : Bool :=
  if cfg.safety_risk_threshold < decision.safety_risk then true
  else if cfg.sla_risk_threshold < decision.sla_risk then true
  else if decision.confidence < cfg.confidence_threshold then true
  else if cfg.complexity_threshold < decision.conflict_group.conflicting_proposals.length then
    true
  else if o.has_critical_sla_impact decision then true
  else if o.has_safety_overrides decision then true
  else if o.has_ambiguous_tradeoffs decision then true
  else false

/-- `WMSOrchestrator.decide_resolution`: rank the group, reject safety/SLA
violators, walk the ranked proposals approving / rescheduling / rejecting /
leaving pending, compute the resolution metrics, and finally set the
escalation flag from `should_escalate_to_planner` (which sees the decision
with `escalation_required = False`, exactly as in the source). -/
def decide_resolution (o : Oracles) (cfg : OrchestratorConfig)
    (conflict_group : ConflictGroup) (gs : WarehouseState) : ResolutionDecision :=
  let ranked := score_and_rank o conflict_group gs
  let rejected0 := rejectViolators o gs ranked
  let st := ranked.foldl (resolutionStep o gs) ⟨[], [], rejected0⟩
  let safety_risk := o.calculate_resolution_safety_risk st.approved st.rescheduled gs
  let sla_risk := o.calculate_resolution_sla_risk st.approved st.rescheduled gs
  let operational_impact :=
    o.calculate_resolution_operational_impact st.approved st.rescheduled gs
  let confidence :=
    o.calculate_resolution_confidence st.approved st.rescheduled st.rejected
      safety_risk sla_risk gs
  let rationale :=
    o.build_resolution_rationale conflict_group st.approved st.rescheduled st.rejected
      safety_risk sla_risk operational_impact
  let resolution : ResolutionDecision :=
    { decision_id := "resolution-" ++ conflict_group.conflict_id
      conflict_group := conflict_group
      approved_proposals := st.approved
      rescheduled_proposals := st.rescheduled
      rejected_proposals := st.rejected
      escalation_required := false
      rationale := rationale
      confidence := confidence
      safety_risk := safety_risk
      sla_risk := sla_risk
      operational_impact := operational_impact }
  { resolution with
    escalation_required := should_escalate_to_planner cfg o resolution }

/-- The actions emitted by `finalize_actions` for one decision: one per
approved proposal, then one per rescheduled proposal whose original proposal
can be found in the conflict group by agent name (using the updated time
window). -/
def finalizeOne (now : Int) (d : ResolutionDecision) : List ApprovedAction :=
  (d.approved_proposals.map (fun p =>
    { action_id := "action-" ++ p.agent_name ++ "-" ++ d.decision_id
      original_proposal := p
      approved_time_window := p.time_window
      approved_resources := p.required_resources
      execution_priority := p.priority
      safety_validated := true
      sla_validated := true
      approved_by := if d.escalation_required then "planner:pending" else "orchestrator"
      approved_at := now })) ++
  (d.rescheduled_proposals.filterMap (fun ni =>
    match d.conflict_group.conflicting_proposals.find? (fun p => p.agent_name = ni.1) with
    | some original =>
        some
          { action_id := "action-" ++ ni.1 ++ "-" ++ d.decision_id ++ "-rescheduled"
            original_proposal := original
            approved_time_window := ni.2.new_time_window
            approved_resources := original.required_resources
            execution_priority := original.priority
            safety_validated := true
            sla_validated := true
            approved_by := if d.escalation_required then "planner:pending" else "orchestrator"
            approved_at := now }
    | none => none))

/-- `WMSOrchestrator.finalize_actions` (`datetime.now()` is passed in as
`now`). -/
def finalize_actions (now : Int) (decisions : List ResolutionDecision) :
    List ApprovedAction :=
  decisions.flatMap (finalizeOne now)

/-- A fixed sample time window used by the concrete evaluation theorems. -/
def sampleWindow : TimeWindow := ⟨0, 100⟩

/-- A sample proposal builder used by the concrete evaluation theorems. -/
def sampleProposal (name : String) (priority : Int) (risk unc : ℚ) : ProposedAction :=
  { agent_name := name
    action_type := "move"
    target_entities := [("location", "A-12")]
    time_window := sampleWindow
    required_resources := ["forklift-1"]
    priority := priority
    risk_score := risk
    uncertainty := unc
    constraints_respected := []
    potential_conflicts := []
    explanation := "sample"
    confidence := 9/10
    alternatives := []
    data_sources := [] }

/-- An empty warehouse state snapshot for the concrete evaluation theorems. -/
def sampleState : WarehouseState :=
  ⟨[], [], [], [], [], [], [], [], [], [], 0, []⟩

/-- A conflict group over the given proposals for the concrete evaluation
theorems. -/
def sampleGroup (ps : List ProposedAction) : ConflictGroup :=
  ⟨"cg-1", ps, "resource_competition", "Aisle A-12", sampleWindow, 0, 3/20⟩

/-- Stub oracles in which every pair of proposals conflicts (and, as in the
source stub, no alternative time or location is ever found). -/
def conflictingOracles : Oracles :=
  { stubOracles with proposals_conflict := fun _ _ _ => true }

/-- Stub oracles in which the aisle-lock check fails exactly for the agent
with the given name. -/
def failingOracles (bad : String) : Oracles :=
  { stubOracles with check_aisle_locks := fun p _ => p.agent_name != bad }

/-- Stub oracles whose aisle pass reports the first given group and whose
safety pass reports the second, as `detect_conflicts` receives them from its
detection passes. -/
def twoPassOracles (g1 g2 : ConflictGroup) : Oracles :=
  { stubOracles with
    detect_aisle_conflicts := fun _ _ => [g1]
    detect_safety_violations := fun _ _ => [g2] }

/-- Whether some proposal in the list carries the given agent name. -/
def approvedMem (n : String) (l : List ProposedAction) : Bool :=
  l.any (fun q => q.agent_name = n)

/-- The state folded over by steps 3 and 4 of `decide_resolution`: the
initial state rejects every safety/SLA violator of the ranked list. -/
def initialResState (o : Oracles) (gs : WarehouseState)
    (ranked : List ProposedAction) : ResState :=
  ⟨[], [], rejectViolators o gs ranked⟩

/-- A single-member conflict group of kind safety violation, as the safety
pass of `detect_conflicts` produces them. -/
def safetyGroup (ps : List ProposedAction) : ConflictGroup :=
  ⟨"cg-2", ps, "safety_violation", "Aisle A-12", sampleWindow, 0, 1/2⟩

/-- A concrete resolution decision (one approved proposal, one rescheduled,
none rejected) for the concrete evaluation theorems. -/
def sampleDecision : ResolutionDecision :=
  { decision_id := "resolution-cg-1"
    conflict_group := sampleGroup [sampleProposal "A" 9 0 0, sampleProposal "B" 7 0 0]
    approved_proposals := [sampleProposal "A" 9 0 0]
    rescheduled_proposals := [("B", ⟨⟨40, 60⟩, none, "moved"⟩)]
    rejected_proposals := []
    escalation_required := false
    rationale := "r"
    confidence := 23/25
    safety_risk := 1/20
    sla_risk := 1/10
    operational_impact := ⟨15, 1/50⟩ }

/-! ### Association-list (Python dict) lemmas -/

theorem dictLookup_dictInsert_self {β : Type} (k : String) (v : β)
    (l : List (String × β)) : dictLookup k (dictInsert k v l) = some v := by
  induction l with
  | nil => simp [dictInsert, dictLookup]
  | cons kv rest ih =>
    by_cases h : kv.1 = k
    · simp [dictInsert, h, dictLookup]
    · simp [dictInsert, h, dictLookup, ih]

theorem dictLookup_dictInsert_ne {β : Type} {k k' : String} (h : k ≠ k') (v : β)
    (l : List (String × β)) : dictLookup k (dictInsert k' v l) = dictLookup k l := by
  induction l with
  | nil => simp [dictInsert, dictLookup, Ne.symm h]
  | cons kv rest ih =>
    by_cases hk : kv.1 = k'
    · simp only [dictInsert, hk, if_true, dictLookup]
      rw [if_neg, if_neg] <;> simp [hk, Ne.symm h]
    · simp only [dictInsert, hk, if_false, dictLookup]
      by_cases hm : kv.1 = k
      · simp [hm]
      · simp [hm, ih]

theorem dictMem_dictInsert {β : Type} (m k : String) (v : β)
    (l : List (String × β)) :
    dictMem m (dictInsert k v l) = true ↔ m = k ∨ dictMem m l = true := by
  by_cases h : m = k
  · subst h
    simp [dictMem, dictLookup_dictInsert_self]
  · simp [dictMem, dictLookup_dictInsert_ne h, h]

theorem dictMem_mono {β : Type} {m k : String} (v : β) {l : List (String × β)}
    (h : dictMem m l = true) : dictMem m (dictInsert k v l) = true := by
  exact (dictMem_dictInsert m k v l).mpr (Or.inr h)

/-! ### Stable descending sort lemmas -/

section SortLemmas

variable {α : Type} [DecidableEq α] (key : α → ℚ)

theorem mem_insertD {x a : α} {l : List α} :
    a ∈ insertD key x l ↔ a = x ∨ a ∈ l := by
  induction l with
  | nil => simp [insertD]
  | cons y ys ih =>
    by_cases h : key y ≤ key x
    · simp [insertD, h]
    · simp only [insertD, h, if_false, List.mem_cons, ih]
      tauto

theorem perm_insertD (x : α) (l : List α) : (insertD key x l).Perm (x :: l) := by
  induction l with
  | nil => simp [insertD]
  | cons y ys ih =>
    by_cases h : key y ≤ key x
    · simp [insertD, h]
    · simp only [insertD, h, if_false]
      exact (ih.cons y).trans (List.Perm.swap x y ys)

theorem perm_sortD (l : List α) : (sortD key l).Perm l := by
  induction l with
  | nil => simp [sortD]
  | cons x xs ih =>
    exact (perm_insertD key x (sortD key xs)).trans (ih.cons x)

theorem sorted_insertD {x : α} {l : List α}
    (h : l.Pairwise (fun a b => key b ≤ key a)) :
    (insertD key x l).Pairwise (fun a b => key b ≤ key a) := by
  induction l with
  | nil => simp [insertD]
  | cons y ys ih =>
    by_cases hxy : key y ≤ key x
    · simp only [insertD, hxy, if_true]
      refine List.Pairwise.cons ?_ h
      intro b hb
      rcases List.mem_cons.mp hb with rfl | hb
      · exact hxy
      · exact le_trans (List.rel_of_pairwise_cons h hb) hxy
    · have hys := (List.pairwise_cons.mp h).2
      simp only [insertD, hxy, if_false]
      refine List.Pairwise.cons ?_ (ih hys)
      intro b hb
      rcases (mem_insertD key).mp hb with rfl | hb
      · exact le_of_not_le hxy
      · exact List.rel_of_pairwise_cons h hb

theorem sorted_sortD (l : List α) :
    (sortD key l).Pairwise (fun a b => key b ≤ key a) := by
  induction l with
  | nil => simp [sortD]
  | cons x xs ih => exact sorted_insertD key ih

theorem nodup_sortD {l : List α} (h : l.Nodup) : (sortD key l).Nodup :=
  (perm_sortD key l).nodup_iff.mpr h

theorem indexOf_insertD_self {x : α} {l : List α}
    (hs : l.Pairwise (fun a b => key b ≤ key a)) :
    (insertD key x l).indexOf x = l.countP (fun b => decide (key x < key b)) := by
  induction l with
  | nil => simp [insertD]
  | cons y ys ih =>
    by_cases h : key y ≤ key x
    · have h0 : ∀ b ∈ y :: ys, ¬ key x < key b := by
        intro b hb
        rcases List.mem_cons.mp hb with rfl | hb
        · exact not_lt.mpr h
        · exact not_lt.mpr (le_trans (List.rel_of_pairwise_cons hs hb) h)
      have : (y :: ys).countP (fun b => decide (key x < key b)) = 0 := by
        rw [List.countP_eq_zero]
        intro b hb
        simpa using h0 b hb
      simp [insertD, h, this]
    · have hxy : key x < key y := lt_of_not_le h
      have hne : y ≠ x := by
        intro hyx
        rw [hyx] at hxy
        exact lt_irrefl _ hxy
      have hys := (List.pairwise_cons.mp hs).2
      rw [List.countP_cons]
      simp only [insertD, h, if_false]
      rw [List.indexOf_cons_ne _ hne, ih hys]
      simp [hxy]

theorem indexOf_insertD_of_ne {x a : α} {l : List α} (ha : a ∈ l) (hax : a ≠ x)
    (hs : l.Pairwise (fun a b => key b ≤ key a)) (hn : l.Nodup) :
    (insertD key x l).indexOf a =
      l.indexOf a + (if key a ≤ key x then 1 else 0) := by
  induction l with
  | nil => cases ha
  | cons y ys ih =>
    by_cases h : key y ≤ key x
    · have hak : key a ≤ key x := by
        rcases List.mem_cons.mp ha with rfl | hmem
        · exact h
        · exact le_trans (List.rel_of_pairwise_cons hs hmem) h
      simp only [insertD, h, if_true]
      rw [List.indexOf_cons_ne _ (Ne.symm hax), if_pos hak]
    · have hxy : key x < key y := lt_of_not_le h
      have hys := (List.pairwise_cons.mp hs).2
      simp only [insertD, h, if_false]
      rcases List.mem_cons.mp ha with rfl | hmem
      · rw [List.indexOf_cons_self, List.indexOf_cons_self, if_neg (not_le.mpr hxy)]
      · have hay : a ≠ y := by
          intro hay
          exact (List.nodup_cons.mp hn).1 (hay ▸ hmem)
        rw [List.indexOf_cons_ne _ (Ne.symm hay), List.indexOf_cons_ne _ (Ne.symm hay),
          ih hmem hys (List.nodup_cons.mp hn).2]
        by_cases hk : key a ≤ key x <;> simp [hk, Nat.succ_eq_add_one] <;> omega

theorem indexOf_sortD {l : List α} (hn : l.Nodup) {a : α} (ha : a ∈ l) :
    (sortD key l).indexOf a =
      l.countP (fun b => decide (key a < key b)) +
        (l.take (l.indexOf a)).countP (fun b => decide (key b = key a)) := by
  induction l with
  | nil => cases ha
  | cons x xs ih =>
    have hnx := (List.nodup_cons.mp hn).2
    have hsx : (sortD key xs).Pairwise (fun a b => key b ≤ key a) := sorted_sortD key xs
    rcases List.mem_cons.mp ha with rfl | hmem
    · rw [List.indexOf_cons_self]
      simp only [List.take_zero, List.countP_nil, Nat.add_zero, sortD]
      rw [indexOf_insertD_self key hsx, (perm_sortD key xs).countP_eq, List.countP_cons]
      simp
    · have hax : a ≠ x := by
        intro hax
        exact (List.nodup_cons.mp hn).1 (hax ▸ hmem)
      have hamem : a ∈ sortD key xs := ((perm_sortD key xs).mem_iff).mpr hmem
      simp only [sortD]
      rw [indexOf_insertD_of_ne key hamem hax hsx (nodup_sortD key hnx),
        ih hnx hmem, List.indexOf_cons_ne _ (Ne.symm hax), List.countP_cons]
      have htake : (x :: xs).take (xs.indexOf a + 1) = x :: xs.take (xs.indexOf a) := rfl
      rw [htake, List.countP_cons]
      rcases lt_trichotomy (key a) (key x) with hlt | heq | hgt
      · rw [if_pos (le_of_lt hlt)]
        simp [hlt, ne_of_gt hlt]
        ring
      · rw [if_pos (le_of_eq heq)]
        simp [heq, lt_irrefl]
        ring
      · rw [if_neg (not_le.mpr hgt)]
        simp [not_lt.mpr (le_of_lt hgt), ne_of_lt hgt]

theorem countP_le_key_split (s : ℚ) (l : List α) :
    l.countP (fun b => decide (s ≤ key b)) =
      l.countP (fun b => decide (s < key b)) +
        l.countP (fun b => decide (key b = s)) := by
  induction l with
  | nil => simp
  | cons y ys ih =>
    rw [List.countP_cons, List.countP_cons, List.countP_cons, ih]
    rcases lt_trichotomy s (key y) with hlt | heq | hgt
    · simp [hlt, le_of_lt hlt, ne_of_gt hlt]
      ring
    · simp [heq.symm, le_of_eq heq, lt_irrefl]
      ring
    · simp [not_le.mpr hgt, not_lt.mpr (le_of_lt hgt), ne_of_lt hgt]

theorem indexOf_lt_of_key_lt {l : List α} {a b : α}
    (hs : l.Pairwise (fun a b => key b ≤ key a)) (hn : l.Nodup)
    (ha : a ∈ l) (hb : b ∈ l) (h : key b < key a) :
    l.indexOf a < l.indexOf b := by
  rcases lt_trichotomy (l.indexOf a) (l.indexOf b) with hlt | heq | hgt
  · exact hlt
  · exact absurd ((List.indexOf_inj ha hb).mp heq) (by
      intro hab
      rw [hab] at h
      exact lt_irrefl _ h)
  · exfalso
    have hbl : l.indexOf b < l.length := List.indexOf_lt_length.mpr hb
    have hal : l.indexOf a < l.length := List.indexOf_lt_length.mpr ha
    have := List.pairwise_iff_get.mp hs ⟨l.indexOf b, hbl⟩ ⟨l.indexOf a, hal⟩ hgt
    rw [List.indexOf_get hbl, List.indexOf_get hal] at this
    exact absurd h (not_lt.mpr this)

end SortLemmas

/-! ### Resolution-loop lemmas -/

theorem decide_resolution_approved (o : Oracles) (cfg : OrchestratorConfig)
    (g : ConflictGroup) (gs : WarehouseState) :
    (decide_resolution o cfg g gs).approved_proposals =
      ((score_and_rank o g gs).foldl (resolutionStep o gs)
        (initialResState o gs (score_and_rank o g gs))).approved := rfl

theorem decide_resolution_rescheduled (o : Oracles) (cfg : OrchestratorConfig)
    (g : ConflictGroup) (gs : WarehouseState) :
    (decide_resolution o cfg g gs).rescheduled_proposals =
      ((score_and_rank o g gs).foldl (resolutionStep o gs)
        (initialResState o gs (score_and_rank o g gs))).rescheduled := rfl

theorem decide_resolution_rejected (o : Oracles) (cfg : OrchestratorConfig)
    (g : ConflictGroup) (gs : WarehouseState) :
    (decide_resolution o cfg g gs).rejected_proposals =
      ((score_and_rank o g gs).foldl (resolutionStep o gs)
        (initialResState o gs (score_and_rank o g gs))).rejected := rfl

/-- Exhaustive description of the four possible effects of one iteration of
the resolution loop. -/
theorem resolutionStep_cases (o : Oracles) (gs : WarehouseState) (st : ResState)
    (p : ProposedAction) :
    resolutionStep o gs st p = st ∨
    (dictMem p.agent_name st.rejected = false ∧
      resolutionStep o gs st p = { st with approved := st.approved ++ [p] }) ∨
    (dictMem p.agent_name st.rejected = false ∧
      ∃ info, resolutionStep o gs st p =
        { st with rescheduled := dictInsert p.agent_name info st.rescheduled }) ∨
    (dictMem p.agent_name st.rejected = false ∧
      resolutionStep o gs st p =
        { st with rejected := dictInsert p.agent_name noAlternativeMsg st.rejected }) := by
  unfold resolutionStep
  by_cases h : dictMem p.agent_name st.rejected
  · simp [h]
  · rw [if_neg (by simpa using h)]
    rcases hf : st.approved.find? (fun a => o.proposals_conflict p a gs) with _ | a
    · right; left
      exact ⟨by simpa using h, rfl⟩
    · rcases ha : o.find_alternative_time_or_location p gs st.approved with _ | alt
      · by_cases hp : 8 ≤ p.priority
        · simp [hp, h]
        · rw [if_neg hp]
          right; right; right
          exact ⟨by simpa using h, rfl⟩
      · right; right; left
        exact ⟨by simpa using h, ⟨_, rfl⟩⟩

theorem resolutionStep_rejected_mono (o : Oracles) (gs : WarehouseState)
    {st : ResState} {p : ProposedAction} {n : String}
    (h : dictMem n st.rejected = true) :
    dictMem n (resolutionStep o gs st p).rejected = true := by
  rcases resolutionStep_cases o gs st p with hc | ⟨_, hc⟩ | ⟨_, _, hc⟩ | ⟨_, hc⟩ <;>
    rw [hc] <;> first | exact h | exact dictMem_mono _ h

theorem foldl_resolutionStep_rejected_mono (o : Oracles) (gs : WarehouseState)
    (l : List ProposedAction) {st : ResState} {n : String}
    (h : dictMem n st.rejected = true) :
    dictMem n (l.foldl (resolutionStep o gs) st).rejected = true := by
  induction l generalizing st with
  | nil => exact h
  | cons x xs ih => exact ih (resolutionStep_rejected_mono o gs h)

theorem rejectViolators_foldl_mono (o : Oracles) (gs : WarehouseState)
    (l : List ProposedAction) {acc : List (String × String)} {n : String}
    (h : dictMem n acc = true) :
    dictMem n (l.foldl
      (fun acc p =>
        if apply_safety_and_SLA_rules o p gs then acc
        else
          dictInsert p.agent_name
            ("Proposal violates safety/SLA rules: " ++ o.get_violation_details p gs) acc)
      acc) = true := by
  induction l generalizing acc with
  | nil => exact h
  | cons x xs ih =>
    by_cases hx : apply_safety_and_SLA_rules o x gs
    · simpa [hx] using ih h
    · simpa [hx] using ih (dictMem_mono _ h)

/-- Every ranked proposal failing the safety/SLA check has its agent name in
the step-3 rejection dictionary. -/
theorem rejectViolators_mem (o : Oracles) (gs : WarehouseState)
    {ranked : List ProposedAction} {p : ProposedAction} (hp : p ∈ ranked)
    (hr : apply_safety_and_SLA_rules o p gs = false) :
    dictMem p.agent_name (rejectViolators o gs ranked) = true := by
  unfold rejectViolators
  suffices h : ∀ (l : List ProposedAction) (acc : List (String × String)), p ∈ l →
      dictMem p.agent_name (l.foldl
        (fun acc p =>
          if apply_safety_and_SLA_rules o p gs then acc
          else
            dictInsert p.agent_name
              ("Proposal violates safety/SLA rules: " ++ o.get_violation_details p gs) acc)
        acc) = true by
    exact h ranked [] hp
  intro l
  induction l with
  | nil => intro acc h; cases h
  | cons x xs ih =>
    intro acc hmem
    rcases List.mem_cons.mp hmem with rfl | hmem
    · by_cases hx : apply_safety_and_SLA_rules o p gs
      · rw [hx] at hr; cases hr
      · simp only [List.foldl_cons, hx, if_false]
        exact rejectViolators_foldl_mono o gs xs
          ((dictMem_dictInsert _ _ _ _).mpr (Or.inl rfl))
    · by_cases hx : apply_safety_and_SLA_rules o x gs <;>
        simp only [List.foldl_cons, hx, if_true, if_false] <;> exact ih _ hmem

/-- Fold invariant for claim C1: if every listed proposal failing the
safety/SLA check is already rejected, every proposal the loop approves
passes the check. -/
theorem foldl_approved_pass (o : Oracles) (gs : WarehouseState) :
    ∀ (l : List ProposedAction) (st : ResState),
      (∀ x ∈ l, apply_safety_and_SLA_rules o x gs = false →
        dictMem x.agent_name st.rejected = true) →
      (∀ q ∈ st.approved, apply_safety_and_SLA_rules o q gs = true) →
      ∀ q ∈ (l.foldl (resolutionStep o gs) st).approved,
        apply_safety_and_SLA_rules o q gs = true := by
  intro l
  induction l with
  | nil => intro st _ hap q hq; exact hap q hq
  | cons x xs ih =>
    intro st hrej hap q hq
    rw [List.foldl_cons] at hq
    refine ih (resolutionStep o gs st x) ?_ ?_ q hq
    · intro y hy hyf
      exact resolutionStep_rejected_mono o gs (hrej y (List.mem_cons_of_mem x hy) hyf)
    · rcases resolutionStep_cases o gs st x with hc | ⟨hg, hc⟩ | ⟨_, _, hc⟩ | ⟨_, hc⟩ <;>
        rw [hc]
      · exact hap
      · intro q hq
        rcases List.mem_append.mp hq with hq | hq
        · exact hap q hq
        · have hqx : q = x := by simpa using hq
          subst hqx
          by_cases hx : apply_safety_and_SLA_rules o q gs
          · exact hx
          · exact absurd (hrej q (List.mem_cons_self q xs) (by simpa using hx))
              (by simp [hg])
      · exact hap
      · exact hap

/-- A fold over proposals none of which carries agent name `n` leaves every
`n`-keyed observation of the state unchanged. -/
theorem foldl_resolutionStep_untouched (o : Oracles) (gs : WarehouseState) :
    ∀ (l : List ProposedAction) (st : ResState) (n : String),
      (∀ x ∈ l, x.agent_name ≠ n) →
      approvedMem n (l.foldl (resolutionStep o gs) st).approved =
          approvedMem n st.approved ∧
        dictLookup n (l.foldl (resolutionStep o gs) st).rescheduled =
          dictLookup n st.rescheduled ∧
        dictLookup n (l.foldl (resolutionStep o gs) st).rejected =
          dictLookup n st.rejected := by
  intro l
  induction l with
  | nil => intro st n _; exact ⟨rfl, rfl, rfl⟩
  | cons x xs ih =>
    intro st n hne
    have hx : x.agent_name ≠ n := hne x (List.mem_cons_self x xs)
    have hxs : ∀ y ∈ xs, y.agent_name ≠ n := fun y hy =>
      hne y (List.mem_cons_of_mem x hy)
    rw [List.foldl_cons]
    have step : approvedMem n (resolutionStep o gs st x).approved = approvedMem n st.approved ∧
        dictLookup n (resolutionStep o gs st x).rescheduled = dictLookup n st.rescheduled ∧
        dictLookup n (resolutionStep o gs st x).rejected = dictLookup n st.rejected := by
      rcases resolutionStep_cases o gs st x with hc | ⟨_, hc⟩ | ⟨_, info, hc⟩ | ⟨_, hc⟩ <;>
        rw [hc]
      · exact ⟨rfl, rfl, rfl⟩
      · refine ⟨?_, rfl, rfl⟩
        simp [approvedMem, hx]
      · exact ⟨rfl, dictLookup_dictInsert_ne (Ne.symm hx) _ _, rfl⟩
      · exact ⟨rfl, rfl, dictLookup_dictInsert_ne (Ne.symm hx) _ _⟩
    obtain ⟨s1, s2, s3⟩ := step
    obtain ⟨t1, t2, t3⟩ := ih (resolutionStep o gs st x) n hxs
    exact ⟨t1.trans s1, t2.trans s2, t3.trans s3⟩

theorem approvedMem_append_single (n : String) (A : List ProposedAction)
    (x : ProposedAction) :
    approvedMem n (A ++ [x]) = (approvedMem n A || decide (x.agent_name = n)) := by
  simp [approvedMem]

/-- Fold invariant for claim C10: with pairwise-distinct agent names among
the remaining proposals, none of which already appears in the approved list
or the reschedule dictionary, the loop keeps the three outcome collections
pairwise disjoint by agent name. -/
theorem foldl_resolutionStep_disjoint (o : Oracles) (gs : WarehouseState) :
    ∀ (l : List ProposedAction) (st : ResState),
      (l.map (fun p => p.agent_name)).Nodup →
      (∀ x ∈ l, approvedMem x.agent_name st.approved = false ∧
        dictMem x.agent_name st.rescheduled = false) →
      (∀ n, ¬(approvedMem n st.approved = true ∧ dictMem n st.rescheduled = true)) →
      (∀ n, ¬(approvedMem n st.approved = true ∧ dictMem n st.rejected = true)) →
      (∀ n, ¬(dictMem n st.rescheduled = true ∧ dictMem n st.rejected = true)) →
      ∀ n,
        ¬(approvedMem n (l.foldl (resolutionStep o gs) st).approved = true ∧
          dictMem n (l.foldl (resolutionStep o gs) st).rescheduled = true) ∧
        ¬(approvedMem n (l.foldl (resolutionStep o gs) st).approved = true ∧
          dictMem n (l.foldl (resolutionStep o gs) st).rejected = true) ∧
        ¬(dictMem n (l.foldl (resolutionStep o gs) st).rescheduled = true ∧
          dictMem n (l.foldl (resolutionStep o gs) st).rejected = true) := by
  intro l
  induction l with
  | nil =>
    intro st _ _ h1 h2 h3 n
    exact ⟨h1 n, h2 n, h3 n⟩
  | cons x xs ih =>
    intro st hnames hfresh h1 h2 h3 n
    have hmap : (x.agent_name :: xs.map (fun p => p.agent_name)).Nodup := by
      simpa using hnames
    have hxname := (List.nodup_cons.mp hmap).1
    have hnames' := (List.nodup_cons.mp hmap).2
    have hxfresh := hfresh x (List.mem_cons_self x xs)
    have hname_ne : ∀ y ∈ xs, y.agent_name ≠ x.agent_name := by
      intro y hy he
      exact hxname (he ▸ List.mem_map_of_mem (fun p => p.agent_name) hy)
    rw [List.foldl_cons]
    rcases resolutionStep_cases o gs st x with hc | ⟨hg, hc⟩ | ⟨hg, info, hc⟩ | ⟨hg, hc⟩
    · refine ih (resolutionStep o gs st x) hnames' ?_ ?_ ?_ ?_ n <;> rw [hc]
      · intro y hy
        exact hfresh y (List.mem_cons_of_mem x hy)
      · exact h1
      · exact h2
      · exact h3
    · refine ih (resolutionStep o gs st x) hnames' ?_ ?_ ?_ ?_ n <;> rw [hc]
      · intro y hy
        have hyfresh := hfresh y (List.mem_cons_of_mem x hy)
        refine ⟨?_, hyfresh.2⟩
        rw [approvedMem_append_single, hyfresh.1]
        simp [Ne.symm (hname_ne y hy)]
      · intro m hm
        rcases hm with ⟨hma, hmr⟩
        rw [approvedMem_append_single, Bool.or_eq_true_iff] at hma
        rcases hma with hma | hma
        · exact h1 m ⟨hma, hmr⟩
        · have hmx : m = x.agent_name := by simpa [eq_comm] using hma
          subst hmx
          rw [hxfresh.2] at hmr
          cases hmr
      · intro m hm
        rcases hm with ⟨hma, hmj⟩
        rw [approvedMem_append_single, Bool.or_eq_true_iff] at hma
        rcases hma with hma | hma
        · exact h2 m ⟨hma, hmj⟩
        · have hmx : m = x.agent_name := by simpa [eq_comm] using hma
          subst hmx
          rw [hg] at hmj
          cases hmj
      · exact h3
    · refine ih (resolutionStep o gs st x) hnames' ?_ ?_ ?_ ?_ n <;> rw [hc]
      · intro y hy
        have hyfresh := hfresh y (List.mem_cons_of_mem x hy)
        refine ⟨hyfresh.1, ?_⟩
        rcases hdm : dictMem y.agent_name (dictInsert x.agent_name info st.rescheduled) with _ | _
        · rfl
        · exfalso
          rcases (dictMem_dictInsert _ _ _ _).mp hdm with hmx | hmr
          · exact hname_ne y hy hmx
          · rw [hyfresh.2] at hmr
            cases hmr
      · intro m hm
        rcases hm with ⟨hma, hmr⟩
        rcases (dictMem_dictInsert _ _ _ _).mp hmr with hmx | hmr
        · subst hmx
          rw [hxfresh.1] at hma
          cases hma
        · exact h1 m ⟨hma, hmr⟩
      · exact h2
      · intro m hm
        rcases hm with ⟨hmr, hmj⟩
        rcases (dictMem_dictInsert _ _ _ _).mp hmr with hmx | hmr
        · subst hmx
          rw [hg] at hmj
          cases hmj
        · exact h3 m ⟨hmr, hmj⟩
    · refine ih (resolutionStep o gs st x) hnames' ?_ ?_ ?_ ?_ n <;> rw [hc]
      · intro y hy
        exact hfresh y (List.mem_cons_of_mem x hy)
      · exact h1
      · intro m hm
        rcases hm with ⟨hma, hmj⟩
        rcases (dictMem_dictInsert _ _ _ _).mp hmj with hmx | hmj
        · subst hmx
          rw [hxfresh.1] at hma
          cases hma
        · exact h2 m ⟨hma, hmj⟩
      · intro m hm
        rcases hm with ⟨hmr, hmj⟩
        rcases (dictMem_dictInsert _ _ _ _).mp hmj with hmx | hmj
        · subst hmx
          rw [hxfresh.2] at hmr
          cases hmr
        · exact h3 m ⟨hmr, hmj⟩

/-! ### Claim theorems -/

/-- Claim C1: for every conflict group and warehouse state, a proposal for
which `apply_safety_and_SLA_rules` returns false is never an element of the
`approved_proposals` list of the `ResolutionDecision` returned by
`decide_resolution`, regardless of its composite score. -/
theorem unsafe_proposal_never_approved (o : Oracles) (cfg : OrchestratorConfig)
    (g : ConflictGroup) (gs : WarehouseState) (p : ProposedAction)
    (h : apply_safety_and_SLA_rules o p gs = false) :
    p ∉ (decide_resolution o cfg g gs).approved_proposals := by
  intro hp
  rw [decide_resolution_approved] at hp
  have hpass := foldl_approved_pass o gs (score_and_rank o g gs)
    (initialResState o gs (score_and_rank o g gs))
    (fun x hx hxf => rejectViolators_mem o gs hx hxf)
    (fun q hq => absurd hq (List.not_mem_nil q))
    p hp
  rw [h] at hpass
  cases hpass

/-- Witness for claim C1 at a concrete input: with the aisle-lock check
failing for agent B, B's proposal fails the rule check and is absent from
the approved list. -/
theorem unsafe_proposal_never_approved_witness :
    apply_safety_and_SLA_rules (failingOracles "B") (sampleProposal "B" 7 0 0)
        sampleState = false ∧
      sampleProposal "B" 7 0 0 ∉
        (decide_resolution (failingOracles "B") defaultConfig
          (sampleGroup [sampleProposal "A" 9 0 0, sampleProposal "B" 7 0 0])
          sampleState).approved_proposals :=
  ⟨by decide, unsafe_proposal_never_approved _ _ _ _ _ (by decide)⟩

/-- Claim C5: `should_escalate_to_planner` returns true exactly when at
least one of the seven escalation conditions holds. -/
theorem should_escalate_iff (cfg : OrchestratorConfig) (o : Oracles)
    (d : ResolutionDecision) :
    should_escalate_to_planner cfg o d = true ↔
      (cfg.safety_risk_threshold < d.safety_risk ∨
        cfg.sla_risk_threshold < d.sla_risk ∨
        d.confidence < cfg.confidence_threshold ∨
        cfg.complexity_threshold < d.conflict_group.conflicting_proposals.length ∨
        o.has_critical_sla_impact d = true ∨
        o.has_safety_overrides d = true ∨
        o.has_ambiguous_tradeoffs d = true) := by
  unfold should_escalate_to_planner
  split_ifs with h1 h2 h3 h4 h5 h6 h7 <;> simp [*]

/-- Claim C9: `score_and_rank` returns a permutation of the conflict group's
member list; in particular every member occurs in the output exactly as
often as in the group, so nothing is dropped or duplicated (the group itself
is untouched: the embedding is a pure function of it). -/
theorem score_and_rank_permutation (o : Oracles) (g : ConflictGroup)
    (gs : WarehouseState) :
    (score_and_rank o g gs).Perm g.conflicting_proposals ∧
      ∀ p : ProposedAction,
        (score_and_rank o g gs).count p = g.conflicting_proposals.count p :=
  ⟨perm_sortD (compositeScore o gs) g.conflicting_proposals,
    fun p => (perm_sortD (compositeScore o gs) g.conflicting_proposals).count_eq p⟩

/-- Claim C10: when the proposals of a conflict group carry pairwise
distinct agent names, no agent name occurs in more than one of the approved
list, the reschedule dictionary and the rejection dictionary of the decision
returned by `decide_resolution`. -/
theorem resolution_outcomes_disjoint (o : Oracles) (cfg : OrchestratorConfig)
    (g : ConflictGroup) (gs : WarehouseState)
    (h : (g.conflicting_proposals.map (fun p => p.agent_name)).Nodup)
    (n : String) :
    ¬(approvedMem n (decide_resolution o cfg g gs).approved_proposals = true ∧
      dictMem n (decide_resolution o cfg g gs).rescheduled_proposals = true) ∧
    ¬(approvedMem n (decide_resolution o cfg g gs).approved_proposals = true ∧
      dictMem n (decide_resolution o cfg g gs).rejected_proposals = true) ∧
    ¬(dictMem n (decide_resolution o cfg g gs).rescheduled_proposals = true ∧
      dictMem n (decide_resolution o cfg g gs).rejected_proposals = true) := by
  rw [decide_resolution_approved, decide_resolution_rescheduled,
    decide_resolution_rejected]
  refine foldl_resolutionStep_disjoint o gs _ _ ?_ ?_ ?_ ?_ ?_ n
  · have hperm :=
      (perm_sortD (compositeScore o gs) g.conflicting_proposals).map
        (fun p => p.agent_name)
    exact hperm.nodup_iff.mpr h
  · intro x _
    exact ⟨rfl, rfl⟩
  · intro m hm
    cases hm.1
  · intro m hm
    cases hm.1
  · intro m hm
    cases hm.1

/-- Witness for claim C10 at a concrete input: two distinct agents, one
approved and one rejected by a failing rule check; no name is in two
collections. -/
theorem resolution_outcomes_disjoint_witness :
    ([sampleProposal "A" 9 0 0, sampleProposal "B" 7 0 0].map
        (fun p => p.agent_name)).Nodup ∧
      ¬(approvedMem "B"
          (decide_resolution (failingOracles "B") defaultConfig
            (sampleGroup [sampleProposal "A" 9 0 0, sampleProposal "B" 7 0 0])
            sampleState).approved_proposals = true ∧
        dictMem "B"
          (decide_resolution (failingOracles "B") defaultConfig
            (sampleGroup [sampleProposal "A" 9 0 0, sampleProposal "B" 7 0 0])
            sampleState).rejected_proposals = true) :=
  ⟨by decide,
    (resolution_outcomes_disjoint (failingOracles "B") defaultConfig
      (sampleGroup [sampleProposal "A" 9 0 0, sampleProposal "B" 7 0 0])
      sampleState (by decide) "B").2.1⟩

/-- Claim C3: for a proposal passing the rule check the composite score is
exactly `10·priorityWeight + 5·slaUrgency + 3·(1 − operationalImpact) −
2·riskScore − 2·uncertainty` with `priorityWeight` the priority divided by
10; and a proposal violating the safety rules is ranked below every
non-violating proposal (whose inputs are in their documented ranges),
regardless of its computed score. -/
theorem composite_score_spec :
    (∀ (o : Oracles) (gs : WarehouseState) (p : ProposedAction),
      apply_safety_and_SLA_rules o p gs = true →
      compositeScore o gs p =
        10 * ((p.priority : ℚ) / 10) + 5 * o.calculate_sla_urgency p gs +
          3 * (1 - o.calculate_operational_impact p gs) -
          2 * p.risk_score - 2 * p.uncertainty) ∧
    (∀ (o : Oracles) (gs : WarehouseState) (g : ConflictGroup)
      (p q : ProposedAction),
      g.conflicting_proposals.Nodup →
      p ∈ g.conflicting_proposals → q ∈ g.conflicting_proposals →
      violates_safety_rules o p gs = true →
      apply_safety_and_SLA_rules o q gs = true →
      0 ≤ (q.priority : ℚ) → 0 ≤ o.calculate_sla_urgency q gs →
      o.calculate_operational_impact q gs ≤ 1 →
      q.risk_score ≤ 1 → q.uncertainty ≤ 1 →
      (score_and_rank o g gs).indexOf q < (score_and_rank o g gs).indexOf p) := by
  constructor
  · intro o gs p h
    have hv : violates_safety_rules o p gs = false := by
      simp [violates_safety_rules, h]
    simp only [compositeScore, hv, if_false, Bool.false_eq_true,
      calculate_priority_weight]
    ring
  · intro o gs g p q hnd hp hq hvp hvq hqpri hqsla hqimp hqrisk hqunc
    have hkey : compositeScore o gs p < compositeScore o gs q := by
      have hvq' : violates_safety_rules o q gs = false := by
        simp [violates_safety_rules, hvq]
      have hq4 : (-4 : ℚ) ≤ compositeScore o gs q := by
        simp only [compositeScore, hvq', if_false, Bool.false_eq_true,
          calculate_priority_weight]
        nlinarith [hqpri, hqsla, hqimp, hqrisk, hqunc]
      have hp1000 : compositeScore o gs p = -1000 := by
        simp [compositeScore, hvp]
      rw [hp1000]
      linarith
    exact indexOf_lt_of_key_lt (compositeScore o gs)
      (sorted_sortD (compositeScore o gs) g.conflicting_proposals)
      (nodup_sortD (compositeScore o gs) hnd)
      (((perm_sortD (compositeScore o gs) g.conflicting_proposals).mem_iff).mpr hq)
      (((perm_sortD (compositeScore o gs) g.conflicting_proposals).mem_iff).mpr hp)
      hkey

/-- Witness for claim C3 at concrete inputs: the score of a passing proposal
equals the formula, and a rule-violating proposal B ranks below the passing
proposal A. -/
theorem composite_score_spec_witness :
    compositeScore stubOracles sampleState (sampleProposal "A" 7 (3/10) (3/25)) =
        10 * ((7 : ℚ) / 10) +
          5 * stubOracles.calculate_sla_urgency
            (sampleProposal "A" 7 (3/10) (3/25)) sampleState +
          3 * (1 - stubOracles.calculate_operational_impact
            (sampleProposal "A" 7 (3/10) (3/25)) sampleState) -
          2 * (3/10) - 2 * (3/25) ∧
      (score_and_rank (failingOracles "B")
          (sampleGroup [sampleProposal "A" 9 0 0, sampleProposal "B" 7 0 0])
          sampleState).indexOf (sampleProposal "A" 9 0 0) <
        (score_and_rank (failingOracles "B")
          (sampleGroup [sampleProposal "A" 9 0 0, sampleProposal "B" 7 0 0])
          sampleState).indexOf (sampleProposal "B" 7 0 0) :=
  ⟨composite_score_spec.1 stubOracles sampleState _ (by decide),
    composite_score_spec.2 (failingOracles "B") sampleState _
      (sampleProposal "B" 7 0 0) (sampleProposal "A" 9 0 0)
      (by decide) (by simp [sampleGroup]) (by simp [sampleGroup]) (by decide)
      (by decide) (by norm_num [sampleProposal]) (by norm_num [failingOracles, stubOracles])
      (by norm_num [failingOracles, stubOracles]) (by decide) (by decide)⟩

/-- Claim C4: raising a proposal's priority or lowering its risk or
uncertainty — holding every other proposal, the oracle components of its
score, and its safety status fixed — never moves it to a strictly lower rank
in the list returned by `score_and_rank`. -/
theorem scorer_rank_monotone (o : Oracles) (gs : WarehouseState)
    (pre post : List ProposedAction) (p q : ProposedAction)
    (hnd : (pre ++ p :: post).Nodup)
    (hq : q ∉ pre ++ post)
    (hpri : p.priority ≤ q.priority)
    (hrisk : q.risk_score ≤ p.risk_score)
    (hunc : q.uncertainty ≤ p.uncertainty)
    (hsla : o.calculate_sla_urgency q gs = o.calculate_sla_urgency p gs)
    (himp : o.calculate_operational_impact q gs =
      o.calculate_operational_impact p gs)
    (hvio : violates_safety_rules o q gs = violates_safety_rules o p gs)
    (g g' : ConflictGroup)
    (hg : g.conflicting_proposals = pre ++ p :: post)
    (hg' : g'.conflicting_proposals = pre ++ q :: post) :
    (score_and_rank o g' gs).indexOf q ≤ (score_and_rank o g gs).indexOf p := by
  set key := compositeScore o gs with hkeydef
  have hmid := List.nodup_middle.mp hnd
  have hppp : p ∉ pre ++ post := (List.nodup_cons.mp hmid).1
  have hrest : (pre ++ post).Nodup := (List.nodup_cons.mp hmid).2
  have hnd' : (pre ++ q :: post).Nodup :=
    List.nodup_middle.mpr (List.nodup_cons.mpr ⟨hq, hrest⟩)
  have hppre : p ∉ pre := fun hmem => hppp (List.mem_append_left post hmem)
  have hqpre : q ∉ pre := fun hmem => hq (List.mem_append_left post hmem)
  have hks : key p ≤ key q := by
    by_cases hv : violates_safety_rules o p gs = true
    · have hv' : violates_safety_rules o q gs = true := hvio.trans hv
      simp [hkeydef, compositeScore, hv, hv']
    · have hvf : violates_safety_rules o p gs = false := by
        simpa using hv
      have hvf' : violates_safety_rules o q gs = false := hvio.trans hvf
      have hcast : (p.priority : ℚ) ≤ (q.priority : ℚ) := by
        exact_mod_cast hpri
      simp only [hkeydef, compositeScore, hvf, hvf', if_false,
        Bool.false_eq_true, calculate_priority_weight, hsla, himp]
      nlinarith [hcast, hrisk, hunc]
  have hidxp : List.indexOf p (pre ++ p :: post) = pre.length := by
    rw [List.indexOf_append_of_not_mem hppre]
    simp
  have hidxq : List.indexOf q (pre ++ q :: post) = pre.length := by
    rw [List.indexOf_append_of_not_mem hqpre]
    simp
  have hmemp : p ∈ pre ++ p :: post := List.mem_append_right pre (List.mem_cons_self p post)
  have hmemq : q ∈ pre ++ q :: post := List.mem_append_right pre (List.mem_cons_self q post)
  have hF : (sortD key (pre ++ p :: post)).indexOf p =
      (pre ++ p :: post).countP (fun b => decide (key p < key b)) +
        pre.countP (fun b => decide (key b = key p)) := by
    rw [indexOf_sortD key hnd hmemp, hidxp]
    congr 1
    rw [show (pre ++ p :: post).take pre.length = pre from by
      simpa using List.take_left pre (p :: post)]
  have hF' : (sortD key (pre ++ q :: post)).indexOf q =
      (pre ++ q :: post).countP (fun b => decide (key q < key b)) +
        pre.countP (fun b => decide (key b = key q)) := by
    rw [indexOf_sortD key hnd' hmemq, hidxq]
    congr 1
    rw [show (pre ++ q :: post).take pre.length = pre from by
      simpa using List.take_left pre (q :: post)]
  have hcnt : (pre ++ q :: post).countP (fun b => decide (key q < key b)) +
        pre.countP (fun b => decide (key b = key q)) ≤
      (pre ++ p :: post).countP (fun b => decide (key p < key b)) +
        pre.countP (fun b => decide (key b = key p)) := by
    rw [List.countP_append, List.countP_append, List.countP_cons, List.countP_cons]
    have hqq : (decide (key q < key q) : Bool) = false := by simp
    have hpp : (decide (key p < key p) : Bool) = false := by simp
    rw [hqq, hpp]
    simp only [if_false, Nat.add_zero, Bool.false_eq_true]
    have hpost : post.countP (fun b => decide (key q < key b)) ≤
        post.countP (fun b => decide (key p < key b)) := by
      refine List.countP_mono_left ?_
      intro b _ hb
      simp only [decide_eq_true_eq] at hb ⊢
      exact lt_of_le_of_lt hks hb
    have hpre : pre.countP (fun b => decide (key q < key b)) +
          pre.countP (fun b => decide (key b = key q)) ≤
        pre.countP (fun b => decide (key p < key b)) +
          pre.countP (fun b => decide (key b = key p)) := by
      rw [← countP_le_key_split key (key q) pre, ← countP_le_key_split key (key p) pre]
      refine List.countP_mono_left ?_
      intro b _ hb
      simp only [decide_eq_true_eq] at hb ⊢
      exact le_trans hks hb
    omega
  calc (score_and_rank o g' gs).indexOf q
      = (sortD key (pre ++ q :: post)).indexOf q := by
        rw [score_and_rank, hg']
    _ ≤ (sortD key (pre ++ p :: post)).indexOf p := by
        rw [hF, hF']
        exact hcnt
    _ = (score_and_rank o g gs).indexOf p := by
        rw [score_and_rank, hg]

/-- Witness for claim C4 at a concrete input: raising agent B's priority
from 3 to 6 (other fields unchanged) moves it from rank 1 to rank 0. -/
theorem scorer_rank_monotone_witness :
    (sampleProposal "B" 3 0 0).priority ≤ (sampleProposal "B" 6 0 0).priority ∧
      (score_and_rank stubOracles
          (sampleGroup [sampleProposal "A" 5 0 0, sampleProposal "B" 6 0 0])
          sampleState).indexOf (sampleProposal "B" 6 0 0) ≤
        (score_and_rank stubOracles
          (sampleGroup [sampleProposal "A" 5 0 0, sampleProposal "B" 3 0 0])
          sampleState).indexOf (sampleProposal "B" 3 0 0) :=
  ⟨by norm_num [sampleProposal],
    scorer_rank_monotone stubOracles sampleState [sampleProposal "A" 5 0 0] []
      (sampleProposal "B" 3 0 0) (sampleProposal "B" 6 0 0)
      (by simp [sampleProposal]) (by simp [sampleProposal])
      (by norm_num [sampleProposal]) (by norm_num [sampleProposal])
      (by norm_num [sampleProposal]) rfl rfl (by decide) _ _ rfl rfl⟩

theorem length_filterMap_of_isSome {α β : Type} (f : α → Option β)
    (l : List α) (h : ∀ x ∈ l, (f x).isSome = true) :
    (l.filterMap f).length = l.length := by
  induction l with
  | nil => rfl
  | cons x xs ih =>
    rcases hx : f x with _ | b
    · have := h x (List.mem_cons_self x xs)
      rw [hx] at this
      simp at this
    · rw [List.filterMap_cons_some hx]
      simp only [List.length_cons]
      rw [ih (fun y hy => h y (List.mem_cons_of_mem x hy))]

/-- Claim C6: `finalize_actions` emits exactly one action per approved
proposal and one per rescheduled proposal whose home decision can resolve it
(none for rejected or pending proposals), carrying the original priority,
the original time window for approved proposals and the updated time window
for rescheduled proposals. -/
theorem finalize_actions_spec (now : Int) (decisions : List ResolutionDecision)
    (hfound : ∀ d ∈ decisions, ∀ ni ∈ d.rescheduled_proposals,
      (d.conflict_group.conflicting_proposals.find?
        (fun p => p.agent_name = ni.1)).isSome = true)
    (happ : ∀ d ∈ decisions, ∀ p ∈ d.approved_proposals,
      dictLookup p.agent_name d.rejected_proposals = none)
    (hres : ∀ d ∈ decisions, ∀ ni ∈ d.rescheduled_proposals,
      dictLookup ni.1 d.rejected_proposals = none) :
    (finalize_actions now decisions).length =
      (decisions.map (fun d =>
        d.approved_proposals.length + d.rescheduled_proposals.length)).sum ∧
    ∀ a ∈ finalize_actions now decisions,
      a.execution_priority = a.original_proposal.priority ∧
      ∃ d ∈ decisions,
        ((a.original_proposal ∈ d.approved_proposals ∧
            a.approved_time_window = a.original_proposal.time_window) ∨
          (∃ info, (a.original_proposal.agent_name, info) ∈ d.rescheduled_proposals ∧
            a.approved_time_window = info.new_time_window)) ∧
        dictLookup a.original_proposal.agent_name d.rejected_proposals = none := by
  constructor
  · unfold finalize_actions
    rw [List.length_flatMap]
    congr 1
    refine List.map_congr_left ?_
    intro d hd
    simp only [Function.comp_apply]
    unfold finalizeOne
    rw [List.length_append, List.length_map,
      length_filterMap_of_isSome _ _ ?_]
    intro ni hni
    rcases hf : d.conflict_group.conflicting_proposals.find?
        (fun p => p.agent_name = ni.1) with _ | orig
    · have := hfound d hd ni hni
      rw [hf] at this
      simp at this
    · simp [hf]
  · intro a ha
    rw [finalize_actions, List.mem_flatMap] at ha
    obtain ⟨d, hd, hmem⟩ := ha
    unfold finalizeOne at hmem
    rcases List.mem_append.mp hmem with hmem | hmem
    · rw [List.mem_map] at hmem
      obtain ⟨p, hp, rfl⟩ := hmem
      exact ⟨rfl, d, hd, Or.inl ⟨hp, rfl⟩, happ d hd p hp⟩
    · rw [List.mem_filterMap] at hmem
      obtain ⟨ni, hni, hsome⟩ := hmem
      rcases hf : d.conflict_group.conflicting_proposals.find?
          (fun p => p.agent_name = ni.1) with _ | orig
      · rw [hf] at hsome
        cases hsome
      · rw [hf] at hsome
        have hname : orig.agent_name = ni.1 := by
          have := List.find?_some hf
          simpa using this
        obtain rfl := Option.some.injEq _ _ ▸ hsome
        refine ⟨rfl, d, hd, Or.inr ⟨ni.2, ?_, rfl⟩, ?_⟩
        · simpa [hname] using hni
        · simpa [hname] using hres d hd ni hni

/-- Witness for claim C6 at a concrete input: a decision approving agent A
and rescheduling agent B to the window [40,60] yields exactly two actions
with the stated priorities and windows and none for a rejected proposal. -/
theorem finalize_actions_spec_witness :
    (finalize_actions 50 [sampleDecision]).length =
        ([sampleDecision].map (fun d =>
          d.approved_proposals.length + d.rescheduled_proposals.length)).sum ∧
      ∀ a ∈ finalize_actions 50 [sampleDecision],
        a.execution_priority = a.original_proposal.priority ∧
        ∃ d ∈ [sampleDecision],
          ((a.original_proposal ∈ d.approved_proposals ∧
              a.approved_time_window = a.original_proposal.time_window) ∨
            (∃ info, (a.original_proposal.agent_name, info) ∈ d.rescheduled_proposals ∧
              a.approved_time_window = info.new_time_window)) ∧
          dictLookup a.original_proposal.agent_name d.rejected_proposals = none :=
  finalize_actions_spec 50 [sampleDecision]
    (by
      intro d hd ni hni
      rcases List.mem_singleton.mp hd with rfl
      rcases List.mem_singleton.mp hni with rfl
      decide)
    (by
      intro d hd p hp
      rcases List.mem_singleton.mp hd with rfl
      rfl)
    (by
      intro d hd ni hni
      rcases List.mem_singleton.mp hd with rfl
      rfl)

theorem dictMem_false_lookup_none {β : Type} {n : String} {l : List (String × β)}
    (h : dictMem n l = false) : dictLookup n l = none := by
  unfold dictMem at h
  rcases hl : dictLookup n l with _ | v
  · rfl
  · rw [hl] at h
    cases h

/-- Core of claim C7, stated for an arbitrary starting state of the
resolution loop: when proposal `p` (whose agent name occurs nowhere else)
conflicts with an already-approved proposal and no alternative time or
location exists, `p` with priority at or above 8 is left pending (in none of
the three collections), and `p` with lower priority is rejected with the
no-alternative reason. -/
theorem foldl_no_alternative (o : Oracles) (gs : WarehouseState)
    (pre post : List ProposedAction) (p a : ProposedAction) (st0 : ResState)
    (hp_pre : ∀ x ∈ pre, x.agent_name ≠ p.agent_name)
    (hp_post : ∀ x ∈ post, x.agent_name ≠ p.agent_name)
    (hst0a : approvedMem p.agent_name st0.approved = false)
    (hst0r : dictLookup p.agent_name st0.rescheduled = none)
    (hnotrej : dictMem p.agent_name
      (pre.foldl (resolutionStep o gs) st0).rejected = false)
    (hconf : (pre.foldl (resolutionStep o gs) st0).approved.find?
      (fun q => o.proposals_conflict p q gs) = some a)
    (halt : o.find_alternative_time_or_location p gs
      (pre.foldl (resolutionStep o gs) st0).approved = none) :
    (8 ≤ p.priority →
      approvedMem p.agent_name
          ((pre ++ p :: post).foldl (resolutionStep o gs) st0).approved = false ∧
        dictLookup p.agent_name
          ((pre ++ p :: post).foldl (resolutionStep o gs) st0).rescheduled = none ∧
        dictLookup p.agent_name
          ((pre ++ p :: post).foldl (resolutionStep o gs) st0).rejected = none) ∧
    (p.priority < 8 →
      dictLookup p.agent_name
          ((pre ++ p :: post).foldl (resolutionStep o gs) st0).rejected =
        some noAlternativeMsg) := by
  have hfold : (pre ++ p :: post).foldl (resolutionStep o gs) st0 =
      post.foldl (resolutionStep o gs)
        (resolutionStep o gs (pre.foldl (resolutionStep o gs) st0) p) := by
    rw [List.foldl_append, List.foldl_cons]
  obtain ⟨hpa, hpr, hpj⟩ :=
    foldl_resolutionStep_untouched o gs pre st0 p.agent_name hp_pre
  have hstep : resolutionStep o gs (pre.foldl (resolutionStep o gs) st0) p =
      (if 8 ≤ p.priority then pre.foldl (resolutionStep o gs) st0
       else { pre.foldl (resolutionStep o gs) st0 with
          rejected := dictInsert p.agent_name noAlternativeMsg
            (pre.foldl (resolutionStep o gs) st0).rejected }) := by
    simp only [resolutionStep, hnotrej, hconf, halt]
    rfl
  constructor
  · intro hpri
    rw [hfold, hstep, if_pos hpri]
    obtain ⟨ha, hr, hj⟩ :=
      foldl_resolutionStep_untouched o gs post
        (pre.foldl (resolutionStep o gs) st0) p.agent_name hp_post
    refine ⟨ha.trans (hpa.trans hst0a), hr.trans (hpr.trans hst0r), ?_⟩
    exact hj.trans (dictMem_false_lookup_none hnotrej)
  · intro hpri
    rw [hfold, hstep, if_neg (not_le.mpr hpri)]
    obtain ⟨ha, hr, hj⟩ :=
      foldl_resolutionStep_untouched o gs post
        { pre.foldl (resolutionStep o gs) st0 with
          rejected := dictInsert p.agent_name noAlternativeMsg
            (pre.foldl (resolutionStep o gs) st0).rejected } p.agent_name hp_post
    rw [hj]
    exact dictLookup_dictInsert_self p.agent_name noAlternativeMsg _

/-- Claim C7 (amended): in `decide_resolution`, a proposal that conflicts
with an already-approved proposal and for which no alternative time window
or location is found is left pending escalation when its priority is at or
above 8 (it appears in none of the approved, rescheduled or rejected
collections), and is otherwise placed in `rejected_proposals` with the
reason "Cannot reschedule to accommodate higher-priority proposal, no
alternative time/location available". -/
theorem no_alternative_outcome (o : Oracles) (cfg : OrchestratorConfig)
    (g : ConflictGroup) (gs : WarehouseState)
    (pre post : List ProposedAction) (p a : ProposedAction)
    (hrank : score_and_rank o g gs = pre ++ p :: post)
    (hnames : (g.conflicting_proposals.map (fun q => q.agent_name)).Nodup)
    (hnotrej : dictMem p.agent_name
      (pre.foldl (resolutionStep o gs)
        (initialResState o gs (score_and_rank o g gs))).rejected = false)
    (hconf : (pre.foldl (resolutionStep o gs)
        (initialResState o gs (score_and_rank o g gs))).approved.find?
      (fun q => o.proposals_conflict p q gs) = some a)
    (halt : o.find_alternative_time_or_location p gs
      (pre.foldl (resolutionStep o gs)
        (initialResState o gs (score_and_rank o g gs))).approved = none) :
    (8 ≤ p.priority →
      approvedMem p.agent_name
          (decide_resolution o cfg g gs).approved_proposals = false ∧
        dictLookup p.agent_name
          (decide_resolution o cfg g gs).rescheduled_proposals = none ∧
        dictLookup p.agent_name
          (decide_resolution o cfg g gs).rejected_proposals = none) ∧
    (p.priority < 8 →
      dictLookup p.agent_name
          (decide_resolution o cfg g gs).rejected_proposals =
        some noAlternativeMsg) := by
  have hranknames : ((pre ++ p :: post).map (fun q => q.agent_name)).Nodup := by
    rw [← hrank]
    exact ((perm_sortD (compositeScore o gs) g.conflicting_proposals).map
      (fun q => q.agent_name)).nodup_iff.mpr hnames
  rw [List.map_append, List.map_cons] at hranknames
  have hmid := List.nodup_middle.mp hranknames
  have hnotmem := (List.nodup_cons.mp hmid).1
  have hp_pre : ∀ x ∈ pre, x.agent_name ≠ p.agent_name := by
    intro x hx he
    exact hnotmem (List.mem_append_left _ (he ▸ List.mem_map_of_mem _ hx))
  have hp_post : ∀ x ∈ post, x.agent_name ≠ p.agent_name := by
    intro x hx he
    exact hnotmem (List.mem_append_right _ (he ▸ List.mem_map_of_mem _ hx))
  have hmain := foldl_no_alternative o gs pre post p a
    (initialResState o gs (score_and_rank o g gs)) hp_pre hp_post rfl rfl
    hnotrej hconf halt
  have hlist := congrArg
    (List.foldl (resolutionStep o gs)
      (initialResState o gs (score_and_rank o g gs))) hrank
  rw [decide_resolution_approved, decide_resolution_rescheduled,
    decide_resolution_rejected, hlist]
  exact hmain

/-- Evaluation of the ranking at the concrete C7 scenario: agent A's
priority-9 proposal outranks agent B's priority-3 proposal. -/
theorem sample_rank_eval :
    score_and_rank conflictingOracles
        (sampleGroup [sampleProposal "A" 9 0 0, sampleProposal "B" 3 0 0])
        sampleState = [sampleProposal "A" 9 0 0, sampleProposal "B" 3 0 0] := by
  have hkey : compositeScore conflictingOracles sampleState
        (sampleProposal "B" 3 0 0) ≤
      compositeScore conflictingOracles sampleState
        (sampleProposal "A" 9 0 0) := by
    norm_num [compositeScore, violates_safety_rules, apply_safety_and_SLA_rules,
      conflictingOracles, stubOracles, calculate_priority_weight, sampleProposal]
  unfold score_and_rank sampleGroup
  simp only [sortD, insertD, if_pos hkey]

/-- Evaluation of `decide_resolution` at the concrete C7 scenario: agent B
ends up rejected with the no-alternative reason. -/
theorem sample_resolution_rejected_eval :
    (decide_resolution conflictingOracles defaultConfig
        (sampleGroup [sampleProposal "A" 9 0 0, sampleProposal "B" 3 0 0])
        sampleState).rejected_proposals = [("B", noAlternativeMsg)] := by
  rw [decide_resolution_rejected, sample_rank_eval]
  rfl

/-- Counterexample for claim C7 as stated: at a concrete input where agent
B's priority-3 proposal conflicts with the approved priority-9 proposal of
agent A and no alternative exists, B is indeed rejected, but the recorded
reason is not "resource unavailable after higher-priority approval". -/
theorem no_alternative_reason_not_spec_string :
    dictMem "B"
        (decide_resolution conflictingOracles defaultConfig
          (sampleGroup [sampleProposal "A" 9 0 0, sampleProposal "B" 3 0 0])
          sampleState).rejected_proposals = true ∧
      dictLookup "B"
          (decide_resolution conflictingOracles defaultConfig
            (sampleGroup [sampleProposal "A" 9 0 0, sampleProposal "B" 3 0 0])
            sampleState).rejected_proposals ≠
        some "resource unavailable after higher-priority approval" := by
  rw [dictMem, sample_resolution_rejected_eval]
  constructor
  · decide
  · decide

/-- Witness for the amended claim C7 at a concrete input: agent B
(priority 3) conflicts with approved agent A, no alternative exists, and B
is rejected with the no-alternative reason. -/
theorem no_alternative_outcome_witness :
    (sampleProposal "B" 3 0 0).priority < 8 ∧
      dictLookup "B"
          (decide_resolution conflictingOracles defaultConfig
            (sampleGroup [sampleProposal "A" 9 0 0, sampleProposal "B" 3 0 0])
            sampleState).rejected_proposals = some noAlternativeMsg :=
  ⟨by decide,
    (no_alternative_outcome conflictingOracles defaultConfig
      (sampleGroup [sampleProposal "A" 9 0 0, sampleProposal "B" 3 0 0])
      sampleState [sampleProposal "A" 9 0 0] []
      (sampleProposal "B" 3 0 0) (sampleProposal "A" 9 0 0)
      sample_rank_eval (by decide)
      (by rw [sample_rank_eval]; rfl)
      (by rw [sample_rank_eval]; rfl)
      (by rw [sample_rank_eval]; rfl)).2
      (by decide)⟩

/-- Claim C2 evaluation at a failing input: when the aisle pass reports the
group {A, B} and the safety pass independently reports the single-member
group {B} (as the spec's safety pass does for an independently unsafe
proposal), `detect_conflicts` returns both groups unmerged, so proposal B is
a member of two distinct returned conflict groups — membership uniqueness is
violated. -/
theorem detect_conflicts_shared_member :
    detect_conflicts
        (twoPassOracles
          (sampleGroup [sampleProposal "A" 9 0 0, sampleProposal "B" 7 0 0])
          (safetyGroup [sampleProposal "B" 7 0 0]))
        [sampleProposal "A" 9 0 0, sampleProposal "B" 7 0 0] sampleState =
      [sampleGroup [sampleProposal "A" 9 0 0, sampleProposal "B" 7 0 0],
        safetyGroup [sampleProposal "B" 7 0 0]] ∧
    sampleProposal "B" 7 0 0 ∈
      (sampleGroup [sampleProposal "A" 9 0 0,
        sampleProposal "B" 7 0 0]).conflicting_proposals ∧
    sampleProposal "B" 7 0 0 ∈
      (safetyGroup [sampleProposal "B" 7 0 0]).conflicting_proposals ∧
    sampleGroup [sampleProposal "A" 9 0 0, sampleProposal "B" 7 0 0] ≠
      safetyGroup [sampleProposal "B" 7 0 0] := by
  refine ⟨rfl, ?_, ?_, ?_⟩
  · simp [sampleGroup]
  · simp [safetyGroup]
  · intro h
    exact absurd (congrArg ConflictGroup.conflict_id h) (by decide)

/-- Claim C8 evaluation at a failing input: two proposals from the same
producer with identical action kind and target entities are both present in
the valid-proposal list returned by `collect_proposals` (only the
active-proposal registry keeps just the most recent one). -/
theorem collect_proposals_duplicate_eval :
    collect_proposals stubOracles 0 []
        [sampleProposal "A" 7 0 0, sampleProposal "A" 8 0 0] =
      ([sampleProposal "A" 7 0 0, sampleProposal "A" 8 0 0],
        [sampleProposal "A" 8 0 0]) := rfl
